import Mathlib

/-!
Verification of the sales-bonus report generator.

The repository holds two JavaScript variants of the same module:
`src/main.js` (lenient input validation) and an unnamed second file
(strict input validation).  Both export `calculateSimpleRevenue`,
`calculateBonusByProfit` and `analyzeSalesData`.

Shallow embedding conventions:
* JS numbers are modelled as rationals (`ℚ`); the source performs only
  field arithmetic and two-decimal rounding.
* A JS object field that the code reads with a default (`x || 0`) or
  guards with a truthiness test is modelled as an `Option`; `x || 0` on a
  number-or-undefined equals `Option.getD 0` because the only falsy
  number the data can hold is `0` itself.
* A JS plain object used as a string-keyed dictionary is modelled as an
  insertion-ordered association list; `obj[k] = v` over a `forEach` loop
  makes the last write win, which `lookupProduct` reproduces.
  `Object.entries` enumeration follows ECMA property order (`jsEntries`):
  array-index keys in ascending numeric order first, then the remaining
  keys in insertion order.
* `Array.prototype.sort` with a consistent numeric comparator is a
  stable sort; it is modelled by `List.insertionSort`, which is stable
  and sorted for the same ordering.
* `+(x.toFixed(2))` is modelled by `round2`: nearest multiple of `1/100`,
  ties toward `+∞` (ECMA `toFixed` picks the larger candidate on ties).
* Thrown exceptions are modelled by `Except String`.
-/

/-- A seller as it appears in `data.sellers`. -/
structure Seller where
  id : String
  first_name : String
  last_name : String
deriving DecidableEq

/-- A product as it appears in `data.products`. -/
structure Product where
  sku : String
  purchase_price : ℚ
deriving DecidableEq

/-- A line item of a purchase record, as the lenient variant reads it:
`quantity` is read with a `|| 0` default, so it may be absent. -/
structure Item where
  sku : String
  sale_price : ℚ
  quantity : Option ℚ
  discount : Option ℚ
deriving DecidableEq

/-- A line item whose numeric fields are all present: the domain on which
the arithmetic of `calculateSimpleRevenue` and of the strict variant of
`analyzeSalesData` is defined. -/
structure StrictItem where
  sku : String
  sale_price : ℚ
  quantity : ℚ
  discount : Option ℚ
deriving DecidableEq

/-- The per-seller accumulator built by `analyzeSalesData`
(`sellerStats` in the source).  `products_sold` is the JS object used as
a SKU-to-quantity dictionary, kept in key-insertion order. -/
structure SellerAcc where
  seller_id : String
  name : String
  revenue : ℚ
  profit : ℚ
  sales_count : ℕ
  products_sold : List (String × ℚ)
deriving DecidableEq

/-- One entry of a seller's `top_products` list. -/
structure TopProduct where
  sku : String
  quantity : ℚ
deriving DecidableEq

/-- One element of the report returned by `analyzeSalesData`. -/
structure Report where
  seller_id : String
  name : String
  revenue : ℚ
  profit : ℚ
  sales_count : ℕ
  top_products : List TopProduct
  bonus : ℚ
deriving DecidableEq

/-- Model of `+(x.toFixed(2))`: round to the nearest multiple of `1/100`,
ties toward `+∞`. -/
def round2 (x : ℚ) : ℚ := (⌊x * 100 + 1 / 2⌋ : ℚ) / 100

/-- `calculateSimpleRevenue(purchase, _product)` from the source.  The JS
condition `discount && discount > 0` tests truthiness (nonzero) and then
positivity of the discount. -/
def calculateSimpleRevenue (purchase : StrictItem) (_product : Product) : ℚ :=
  match purchase.discount with
  | some discount =>
    if discount ≠ 0 ∧ 0 < discount then
      let total := purchase.sale_price * purchase.quantity
      let rebate := total * (1 - discount / 100)
      rebate
    else
      purchase.sale_price * purchase.quantity
  | none => purchase.sale_price * purchase.quantity

/-- `calculateBonusByProfit(index, total, seller)` from the source.  The
JS test `index === total - 1` over integers is `index + 1 = total` on
naturals (for `total = 0` both sides are never satisfied). -/
def calculateBonusByProfit (index total : ℕ) (seller : SellerAcc) : ℚ :=
  let profit := seller.profit
  if index = 0 then
    profit * 0.15
  else if index < 3 then
    profit * 0.1
  else if index + 1 = total then
    0
  else
    profit * 0.05

/-- Claim C2: `calculateBonusByProfit` evaluates its conditions strictly
in the order `index == 0` (profit × 0.15), then `index < 3`
(profit × 0.10), then `index == total − 1` (0), then the default
(profit × 0.05); with a single seller (total = 1, index = 0) the rank-0
rule fires and the bonus is profit × 0.15. -/
theorem calculateBonusByProfit_order (index total : ℕ) (seller : SellerAcc) :
    (index = 0 → calculateBonusByProfit index total seller = seller.profit * 0.15) ∧
    (index ≠ 0 → index < 3 →
      calculateBonusByProfit index total seller = seller.profit * 0.1) ∧
    (index ≠ 0 → ¬ index < 3 → index + 1 = total →
      calculateBonusByProfit index total seller = 0) ∧
    (index ≠ 0 → ¬ index < 3 → index + 1 ≠ total →
      calculateBonusByProfit index total seller = seller.profit * 0.05) ∧
    calculateBonusByProfit 0 1 seller = seller.profit * 0.15 := by
  refine ⟨fun h0 => ?_, fun h0 h3 => ?_, fun h0 h3 hl => ?_, fun h0 h3 hl => ?_, ?_⟩ <;>
    simp [calculateBonusByProfit, *]

/-- Witness for `calculateBonusByProfit_order` at concrete ranks. -/
theorem calculateBonusByProfit_order_witness :
    calculateBonusByProfit 0 1 ⟨"s", "n", 0, 100, 0, []⟩ = 100 * 0.15 ∧
    calculateBonusByProfit 1 5 ⟨"s", "n", 0, 100, 0, []⟩ = 100 * 0.1 ∧
    calculateBonusByProfit 4 5 ⟨"s", "n", 0, 100, 0, []⟩ = 0 ∧
    calculateBonusByProfit 3 5 ⟨"s", "n", 0, 100, 0, []⟩ = 100 * 0.05 :=
  ⟨(calculateBonusByProfit_order 0 1 ⟨"s", "n", 0, 100, 0, []⟩).1 rfl,
   (calculateBonusByProfit_order 1 5 ⟨"s", "n", 0, 100, 0, []⟩).2.1 (by decide) (by decide),
   (calculateBonusByProfit_order 4 5 ⟨"s", "n", 0, 100, 0, []⟩).2.2.1
     (by decide) (by decide) (by decide),
   (calculateBonusByProfit_order 3 5 ⟨"s", "n", 0, 100, 0, []⟩).2.2.2.1
     (by decide) (by decide) (by decide)⟩

/-- Claim C3 counterexample: with two sellers, the last-place seller
(index 1, total 2) gets profit × 0.1, not 0 — the middle rule fires
before the last-place rule. -/
theorem calculateBonusByProfit_last_place_not_zero :
    calculateBonusByProfit 1 2 ⟨"s", "n", 0, 100, 0, []⟩ = 10 ∧
    calculateBonusByProfit 1 2 ⟨"s", "n", 0, 100, 0, []⟩ ≠ 0 := by
  constructor <;> with_unfolding_all decide

/-- Claim C3 (amended): when `totalSellers ≤ 3` and the rank index is 1
or 2 and equals `totalSellers − 1`, the middle (`index < 3`) rule takes
precedence and the bonus is profit × 0.1, not 0. -/
theorem calculateBonusByProfit_small_total (index total : ℕ) (seller : SellerAcc)
    (_htotal : total ≤ 3) (hidx : index = 1 ∨ index = 2) (_hlast : index + 1 = total) :
    calculateBonusByProfit index total seller = seller.profit * 0.1 := by
  rcases hidx with h | h <;> subst h <;> simp [calculateBonusByProfit]

/-- Witness for `calculateBonusByProfit_small_total`. -/
theorem calculateBonusByProfit_small_total_witness :
    calculateBonusByProfit 1 2 ⟨"s", "n", 0, 100, 0, []⟩ = 100 * 0.1 :=
  calculateBonusByProfit_small_total 1 2 ⟨"s", "n", 0, 100, 0, []⟩
    (by decide) (Or.inl rfl) (by decide)

/-- Claim C4: `calculateSimpleRevenue` returns
`sale_price × quantity × (1 − discount/100)` when the discount is present
and positive, and `sale_price × quantity` otherwise. -/
theorem calculateSimpleRevenue_spec (purchase : StrictItem) (product : Product) :
    (∀ d : ℚ, purchase.discount = some d → 0 < d →
      calculateSimpleRevenue purchase product
        = purchase.sale_price * purchase.quantity * (1 - d / 100)) ∧
    (purchase.discount = none →
      calculateSimpleRevenue purchase product
        = purchase.sale_price * purchase.quantity) ∧
    (∀ d : ℚ, purchase.discount = some d → ¬ 0 < d →
      calculateSimpleRevenue purchase product
        = purchase.sale_price * purchase.quantity) := by
  refine ⟨fun d hd hpos => ?_, fun hnone => ?_, fun d hd hpos => ?_⟩
  · simp [calculateSimpleRevenue, hd, ne_of_gt hpos, hpos]
  · simp [calculateSimpleRevenue, hnone]
  · simp [calculateSimpleRevenue, hd, hpos]

/-- Witness for `calculateSimpleRevenue_spec` on concrete items. -/
theorem calculateSimpleRevenue_spec_witness :
    calculateSimpleRevenue ⟨"a", 20, 5, some 10⟩ ⟨"a", 10⟩ = 20 * 5 * (1 - 10 / 100) ∧
    calculateSimpleRevenue ⟨"a", 20, 5, none⟩ ⟨"a", 10⟩ = 20 * 5 ∧
    calculateSimpleRevenue ⟨"a", 20, 5, some 0⟩ ⟨"a", 10⟩ = 20 * 5 :=
  ⟨(calculateSimpleRevenue_spec ⟨"a", 20, 5, some 10⟩ ⟨"a", 10⟩).1 10 rfl (by norm_num),
   (calculateSimpleRevenue_spec ⟨"a", 20, 5, none⟩ ⟨"a", 10⟩).2.1 rfl,
   (calculateSimpleRevenue_spec ⟨"a", 20, 5, some 0⟩ ⟨"a", 10⟩).2.2 0 rfl (by norm_num)⟩

/-- Model of `productIndex[sku]`: the index is filled by a `forEach`
assignment, so the last product with a given SKU wins. -/
def lookupProduct (products : List Product) (sku : String) : Option Product :=
  products.foldl (fun acc p => if p.sku = sku then some p else acc) none

/-- Model of `sellerIndex[record.seller_id]`: the last accumulator with a
given seller id wins.  Written recursively (defer to a later match when
one exists) so that it pairs with `updateStat`. -/
def lookupStat (sid : String) : List SellerAcc → Option SellerAcc
  | [] => none
  | s :: rest =>
    if rest.any (fun t => t.seller_id == sid) then lookupStat sid rest
    else if s.seller_id == sid then some s else none

/-- Model of mutating the accumulator object found through
`sellerIndex[sid]`: the object is an element of the stats list, so the
update rewrites the last element with that seller id in place. -/
def updateStat (sid : String) (f : SellerAcc → SellerAcc) : List SellerAcc → List SellerAcc
  | [] => []
  | s :: rest =>
    if rest.any (fun t => t.seller_id == sid) then s :: updateStat sid f rest
    else if s.seller_id == sid then f s :: rest
    else s :: rest

/-- Model of
`if (!ps[sku]) ps[sku] = 0; ps[sku] += q` on the `products_sold`
dictionary.  A present key is updated in place (JS re-assignment keeps
the key's insertion position, and re-initializing a stored `0` before
adding is a no-op); an absent key is appended. -/
def addSold (sold : List (String × ℚ)) (sku : String) (q : ℚ) : List (String × ℚ) :=
  if sold.any (fun e => e.1 == sku) then
    sold.map fun e => if e.1 == sku then (e.1, e.2 + q) else e
  else
    sold ++ [(sku, q)]

/-- A purchase record as the lenient variant reads it:
`total_amount` is read as `record.total_amount || 0` and `items` is
guarded by `record.items && Array.isArray(record.items)`. -/
structure PurchaseRecord where
  seller_id : String
  total_amount : Option ℚ
  items : Option (List Item)
deriving DecidableEq

/-- The body of the per-item `forEach` of `analyzeSalesData`
(`src/main.js`): resolve the product, and if found add
`revenue − purchase_price × (quantity || 0)` to the seller's profit and
`quantity || 0` to the per-SKU quantity dictionary. -/
def processItem (calculateRevenue : Item → Product → ℚ) (products : List Product)
    (seller : SellerAcc) (item : Item) : SellerAcc :=
  match lookupProduct products item.sku with
  | none => seller
  | some product =>
    let cost := product.purchase_price * item.quantity.getD 0
    let revenue := calculateRevenue item product
    let itemProfit := revenue - cost
    { seller with
      profit := seller.profit + itemProfit,
      products_sold := addSold seller.products_sold item.sku (item.quantity.getD 0) }

/-- The body of the per-record `forEach` of `analyzeSalesData`
(`src/main.js`): skip the record when the seller id is unknown,
otherwise bump `sales_count`, add `total_amount || 0` to revenue, and
fold the item loop over the record's items (when they are an array). -/
def processRecord (calculateRevenue : Item → Product → ℚ) (products : List Product)
    (stats : List SellerAcc) (record : PurchaseRecord) : List SellerAcc :=
  if stats.any (fun s => s.seller_id == record.seller_id) then
    updateStat record.seller_id
      (fun seller =>
        let seller := { seller with
          sales_count := seller.sales_count + 1,
          revenue := seller.revenue + record.total_amount.getD 0 }
        match record.items with
        | some items => items.foldl (processItem calculateRevenue products) seller
        | none => seller)
      stats
  else
    stats

/-- The `data` argument of the lenient variant; each collection may be
absent (`undefined` or not an array). -/
structure SalesData where
  sellers : Option (List Seller)
  products : Option (List Product)
  purchase_records : Option (List PurchaseRecord)

/-- The `options` argument; a missing or non-invocable policy is `none`. -/
structure AnalyzeOptions where
  calculateRevenue : Option (Item → Product → ℚ)
  calculateBonus : Option (ℕ → ℕ → SellerAcc → ℚ)

/-- `data.sellers.map(...)`: one fresh accumulator per seller, in input
order, named by the template literal `first_name last_name`. -/
def sellerStatsOf (sellers : List Seller) : List SellerAcc :=
  sellers.map fun s =>
    { seller_id := s.id, name := s.first_name ++ " " ++ s.last_name,
      revenue := 0, profit := 0, sales_count := 0, products_sold := [] }

/-- The ordering of the seller sort `(a, b) => b.profit - a.profit`:
`a` precedes `b` when `b.profit ≤ a.profit`. -/
abbrev profitGE (a b : SellerAcc) : Prop := b.profit ≤ a.profit

instance : DecidableRel profitGE := fun a b => inferInstanceAs (Decidable (b.profit ≤ a.profit))

instance : IsTotal SellerAcc profitGE := ⟨fun a b => le_total b.profit a.profit⟩

instance : IsTrans SellerAcc profitGE := ⟨fun _ _ _ hab hbc => le_trans hbc hab⟩

/-- `[...sellerStats].sort((a, b) => b.profit - a.profit)`: a stable sort
by descending profit, modelled by insertion sort (stable, and sorted for
`profitGE`). -/
def sortByProfit (stats : List SellerAcc) : List SellerAcc :=
  stats.insertionSort profitGE

/-- The ordering of the top-products sort `(a, b) => b.quantity - a.quantity`. -/
abbrev quantityGE (a b : TopProduct) : Prop := b.quantity ≤ a.quantity

instance : DecidableRel quantityGE := fun a b => inferInstanceAs (Decidable (b.quantity ≤ a.quantity))

instance : IsTotal TopProduct quantityGE := ⟨fun a b => le_total b.quantity a.quantity⟩

instance : IsTrans TopProduct quantityGE := ⟨fun _ _ _ hab hbc => le_trans hbc hab⟩

/-- The decimal value of a digit string (used for the numeric ordering of
JS array-index property keys). -/
def digitsVal (l : List Char) : ℕ :=
  l.foldl (fun n c => 10 * n + (c.toNat - '0'.toNat)) 0

/-- Whether a SKU string is a JS array-index property key: a canonical
decimal integer string (no leading zero except `"0"` itself) whose value
is below `2^32 − 1`.  ECMA `OrdinaryOwnPropertyKeys` enumerates such keys
first, in ascending numeric order. -/
def jsArrayIndexKey (s : String) : Bool :=
  !s.data.isEmpty && s.data.all Char.isDigit
    && (s.data == ['0'] || s.data.headD '0' != '0')
    && decide (digitsVal s.data < 4294967295)

/-- Ascending numeric order on array-index keys of the dictionary. -/
def jsKeyLE (a b : String × ℚ) : Prop := digitsVal a.1.data ≤ digitsVal b.1.data

instance : DecidableRel jsKeyLE :=
  fun a b => Nat.decLe (digitsVal a.1.data) (digitsVal b.1.data)

/-- `Object.entries(obj)` on a string-keyed dictionary: array-index keys
first in ascending numeric order, then the remaining keys in insertion
order (ECMA `OrdinaryOwnPropertyKeys`). -/
def jsEntries (sold : List (String × ℚ)) : List (String × ℚ) :=
  (sold.filter fun e => jsArrayIndexKey e.1).insertionSort jsKeyLE
    ++ sold.filter fun e => ! jsArrayIndexKey e.1

/-- `Object.entries(seller.products_sold).map(...).sort((a, b) =>
b.quantity - a.quantity).slice(0, 10)`: the entries are enumerated in the
JS property order (`jsEntries`), then stably sorted by descending
quantity, then truncated to 10. -/
def topProductsOf (sold : List (String × ℚ)) : List TopProduct :=
  (((jsEntries sold).map fun e => TopProduct.mk e.1 e.2).insertionSort quantityGE).take 10

/-- The enrichment and shaping steps shared by both variants: for each
seller of the sorted list, at its 0-based index, compute the bonus and
the top products, then emit the report row with two-decimal rounding. -/
def makeReport (calculateBonus : ℕ → ℕ → SellerAcc → ℚ) (sorted : List SellerAcc) :
    List Report :=
  let totalSellers := sorted.length
  sorted.enum.map fun p =>
    { seller_id := p.2.seller_id, name := p.2.name,
      revenue := round2 p.2.revenue, profit := round2 p.2.profit,
      sales_count := p.2.sales_count,
      top_products := topProductsOf p.2.products_sold,
      bonus := round2 (calculateBonus p.1 totalSellers p.2) }

/-- The index-building and fold phase of the lenient variant: the product
index is empty unless `data.products` is an array, and the record loop
runs only when `data.purchase_records` is an array. -/
def aggregateStats (calculateRevenue : Item → Product → ℚ)
    (products : Option (List Product)) (records : Option (List PurchaseRecord))
    (sellers : List Seller) : List SellerAcc :=
  let stats := sellerStatsOf sellers
  match records with
  | some records => records.foldl (processRecord calculateRevenue (products.getD [])) stats
  | none => stats

/-- `analyzeSalesData(data, options)` from `src/main.js` (lenient
validation: only `data` and a non-empty `sellers` array are required;
`products` and `purchase_records` are optional). -/
def analyzeSalesData (data : Option SalesData) (options : Option AnalyzeOptions) :
    Except String (List Report) :=
  match data with
  | none => Except.error "Некорректные входные данные"
  | some d =>
    match d.sellers with
    | none => Except.error "Некорректные входные данные"
    | some [] => Except.error "Некорректные входные данные"
    | some (s₀ :: rest) =>
      match options with
      | none => Except.error "Некорректные опции"
      | some o =>
        match o.calculateRevenue, o.calculateBonus with
        | some calculateRevenue, some calculateBonus =>
          Except.ok (makeReport calculateBonus
            (sortByProfit (aggregateStats calculateRevenue d.products
              d.purchase_records (s₀ :: rest))))
        | _, _ => Except.error "Некорректные опции"

/-! ### Field-preservation lemmas for the fold phase -/

theorem processItem_seller_id (rev : Item → Product → ℚ) (products : List Product)
    (acc : SellerAcc) (item : Item) :
    (processItem rev products acc item).seller_id = acc.seller_id := by
  unfold processItem; split <;> rfl

theorem processItem_revenue (rev : Item → Product → ℚ) (products : List Product)
    (acc : SellerAcc) (item : Item) :
    (processItem rev products acc item).revenue = acc.revenue := by
  unfold processItem; split <;> rfl

theorem processItem_sales_count (rev : Item → Product → ℚ) (products : List Product)
    (acc : SellerAcc) (item : Item) :
    (processItem rev products acc item).sales_count = acc.sales_count := by
  unfold processItem; split <;> rfl

theorem foldl_processItem_seller_id (rev : Item → Product → ℚ) (products : List Product) :
    ∀ (items : List Item) (acc : SellerAcc),
      (items.foldl (processItem rev products) acc).seller_id = acc.seller_id
  | [], _ => rfl
  | i :: items, acc => by
    rw [List.foldl_cons, foldl_processItem_seller_id rev products items,
      processItem_seller_id]

theorem foldl_processItem_revenue (rev : Item → Product → ℚ) (products : List Product) :
    ∀ (items : List Item) (acc : SellerAcc),
      (items.foldl (processItem rev products) acc).revenue = acc.revenue
  | [], _ => rfl
  | i :: items, acc => by
    rw [List.foldl_cons, foldl_processItem_revenue rev products items, processItem_revenue]

theorem foldl_processItem_sales_count (rev : Item → Product → ℚ) (products : List Product) :
    ∀ (items : List Item) (acc : SellerAcc),
      (items.foldl (processItem rev products) acc).sales_count = acc.sales_count
  | [], _ => rfl
  | i :: items, acc => by
    rw [List.foldl_cons, foldl_processItem_sales_count rev products items,
      processItem_sales_count]

/-! ### `updateStat` and `lookupStat` -/

theorem updateStat_map_seller_id (sid : String) (f : SellerAcc → SellerAcc)
    (hf : ∀ a, (f a).seller_id = a.seller_id) :
    ∀ l : List SellerAcc,
      (updateStat sid f l).map SellerAcc.seller_id = l.map SellerAcc.seller_id := by
  intro l
  induction l with
  | nil => rfl
  | cons s rest ih =>
    unfold updateStat
    by_cases h : rest.any (fun t => t.seller_id == sid)
    · simp [h, ih]
    · by_cases hs : (s.seller_id == sid) = true
      · simp [h, hs, hf]
      · simp [h, hs]

theorem any_seller_id_eq (sid : String) (l : List SellerAcc) :
    l.any (fun t => t.seller_id == sid)
      = (l.map SellerAcc.seller_id).any (fun i => i == sid) := by
  induction l with
  | nil => rfl
  | cons s rest ih => simp [ih]

theorem lookupStat_updateStat (sid : String) (f : SellerAcc → SellerAcc)
    (hf : ∀ a, (f a).seller_id = a.seller_id) :
    ∀ l : List SellerAcc,
      lookupStat sid (updateStat sid f l) = (lookupStat sid l).map f := by
  intro l
  induction l with
  | nil => rfl
  | cons s rest ih =>
    by_cases h : rest.any (fun t => t.seller_id == sid)
    · have hany : (updateStat sid f rest).any (fun t => t.seller_id == sid) = true := by
        rw [any_seller_id_eq, updateStat_map_seller_id sid f hf, ← any_seller_id_eq]
        exact h
      simp [updateStat, lookupStat, h, hany, ih]
    · by_cases hs : (s.seller_id == sid) = true
      · have hanyf : (updateStat sid f rest).any (fun t => t.seller_id == sid) = false := by
          rw [any_seller_id_eq, updateStat_map_seller_id sid f hf, ← any_seller_id_eq]
          simpa using h
        simp [updateStat, lookupStat, h, hs, hf, hanyf]
      · simp [updateStat, lookupStat, h, hs]

theorem updateStat_revenue_sum (sid : String) (f : SellerAcc → SellerAcc) (ta : ℚ)
    (hrev : ∀ a, (f a).revenue = a.revenue + ta) :
    ∀ l : List SellerAcc, l.any (fun s => s.seller_id == sid) = true →
      ((updateStat sid f l).map SellerAcc.revenue).sum
        = (l.map SellerAcc.revenue).sum + ta := by
  intro l
  induction l with
  | nil => simp
  | cons s rest ih =>
    intro hany
    unfold updateStat
    by_cases h : rest.any (fun t => t.seller_id == sid)
    · simp only [h, if_true, List.map_cons, List.sum_cons, ih h]
      ring
    · have hs : (s.seller_id == sid) = true := by
        simp only [List.any_cons, h, Bool.or_false] at hany
        exact hany
      simp only [h, if_false, hs, if_true, Bool.false_eq_true, List.map_cons,
        List.sum_cons, hrev]
      ring

/-! ### `processRecord` lemmas -/

theorem processRecord_unknown_seller (rev : Item → Product → ℚ) (products : List Product)
    (stats : List SellerAcc) (record : PurchaseRecord)
    (h : stats.any (fun s => s.seller_id == record.seller_id) = false) :
    processRecord rev products stats record = stats := by
  unfold processRecord
  simp [h]

theorem processRecord_map_seller_id (rev : Item → Product → ℚ) (products : List Product)
    (stats : List SellerAcc) (record : PurchaseRecord) :
    (processRecord rev products stats record).map SellerAcc.seller_id
      = stats.map SellerAcc.seller_id := by
  unfold processRecord
  by_cases h : stats.any (fun s => s.seller_id == record.seller_id)
  · simp only [h, if_true]
    refine updateStat_map_seller_id _ _ (fun a => ?_) stats
    cases record.items with
    | none => rfl
    | some items => exact foldl_processItem_seller_id rev products items _
  · simp [h]

theorem processRecord_revenue_sum (rev : Item → Product → ℚ) (products : List Product)
    (stats : List SellerAcc) (record : PurchaseRecord) :
    ((processRecord rev products stats record).map SellerAcc.revenue).sum
      = (stats.map SellerAcc.revenue).sum
        + (if stats.any (fun s => s.seller_id == record.seller_id) = true then
            record.total_amount.getD 0 else 0) := by
  by_cases h : stats.any (fun s => s.seller_id == record.seller_id)
  · simp only [h, if_true]
    unfold processRecord
    simp only [h, if_true]
    refine updateStat_revenue_sum _ _ _ (fun a => ?_) stats h
    cases record.items with
    | none => rfl
    | some items => exact foldl_processItem_revenue rev products items _
  · simp [processRecord_unknown_seller rev products stats record (by simpa using h), h]

theorem foldl_processRecord_map_seller_id (rev : Item → Product → ℚ)
    (products : List Product) :
    ∀ (records : List PurchaseRecord) (stats : List SellerAcc),
      ((records.foldl (processRecord rev products) stats)).map SellerAcc.seller_id
        = stats.map SellerAcc.seller_id
  | [], _ => rfl
  | rec :: records, stats => by
    rw [List.foldl_cons, foldl_processRecord_map_seller_id rev products records,
      processRecord_map_seller_id]

theorem foldl_processRecord_revenue_sum (rev : Item → Product → ℚ)
    (products : List Product) (ids : List String) :
    ∀ (records : List PurchaseRecord) (stats : List SellerAcc),
      stats.map SellerAcc.seller_id = ids →
      ((records.foldl (processRecord rev products) stats).map SellerAcc.revenue).sum
        = (stats.map SellerAcc.revenue).sum
          + ((records.filter fun rec => ids.any fun i => i == rec.seller_id).map
              (fun rec => rec.total_amount.getD 0)).sum := by
  intro records
  induction records with
  | nil => intro stats _; simp
  | cons rec records ih =>
    intro stats hids
    have hany : stats.any (fun s => s.seller_id == rec.seller_id)
        = ids.any (fun i => i == rec.seller_id) := by
      rw [any_seller_id_eq, hids]
    have hmap : (processRecord rev products stats rec).map SellerAcc.seller_id = ids := by
      rw [processRecord_map_seller_id]; exact hids
    rw [List.foldl_cons, ih _ hmap, processRecord_revenue_sum, hany, List.filter_cons]
    by_cases hk : ids.any (fun i => i == rec.seller_id) = true
    · simp only [hk, if_true, List.map_cons, List.sum_cons]
      ring
    · simp only [hk, if_false]
      simp only [Bool.not_eq_true] at hk
      simp [hk]

/-- `sellerStats` starts as one accumulator per input seller, in order. -/
theorem sellerStatsOf_map_seller_id (sellers : List Seller) :
    (sellerStatsOf sellers).map SellerAcc.seller_id = sellers.map Seller.id := by
  simp [sellerStatsOf, List.map_map]

theorem aggregateStats_map_seller_id (rev : Item → Product → ℚ)
    (products : Option (List Product)) (records : Option (List PurchaseRecord))
    (sellers : List Seller) :
    (aggregateStats rev products records sellers).map SellerAcc.seller_id
      = sellers.map Seller.id := by
  unfold aggregateStats
  cases records with
  | none => exact sellerStatsOf_map_seller_id sellers
  | some records =>
    rw [foldl_processRecord_map_seller_id]
    exact sellerStatsOf_map_seller_id sellers

/-! ### Stability and sortedness of the stable-sort model -/

theorem pairwise_filter_of_imp {α : Type} (r : α → α → Prop) (p : α → Bool)
    (hp : ∀ a b, p a = true → p b = true → r a b) :
    ∀ l : List α, (l.filter p).Pairwise r := by
  intro l
  induction l with
  | nil => simp
  | cons a l ih =>
    rw [List.filter_cons]
    by_cases h : p a = true
    · simp only [h, if_true]
      exact List.Pairwise.cons
        (fun b hb => hp a b h (List.mem_filter.mp hb).2) ih
    · simp [h, ih]

/-- A stable sort leaves the elements sharing any given sort key in their
original relative order: filtering an equal-key class out of the sorted
list gives the same list as filtering it out of the input. -/
theorem insertionSort_filter_eq {α : Type} (r : α → α → Prop) [DecidableRel r]
    (p : α → Bool) (hp : ∀ a b, p a = true → p b = true → r a b) (l : List α) :
    (l.insertionSort r).filter p = l.filter p := by
  have hpair : (l.filter p).Pairwise r := pairwise_filter_of_imp r p hp l
  have hstab : List.Sublist (l.filter p) (l.insertionSort r) :=
    List.sublist_insertionSort hpair (List.filter_sublist l)
  have hperm : List.Perm ((l.insertionSort r).filter p) (l.filter p) :=
    (List.perm_insertionSort r l).filter p
  have hsubf : List.Sublist ((l.filter p).filter p) ((l.insertionSort r).filter p) :=
    hstab.filter p
  have hff : (l.filter p).filter p = l.filter p := by
    simp [List.filter_filter]
  rw [hff] at hsubf
  exact (hsubf.eq_of_length hperm.length_eq.symm).symm

theorem sortByProfit_pairwise (stats : List SellerAcc) :
    (sortByProfit stats).Pairwise profitGE :=
  List.sorted_insertionSort profitGE stats

theorem sortByProfit_filter_eq (stats : List SellerAcc) (q : ℚ) :
    (sortByProfit stats).filter (fun s => decide (s.profit = q))
      = stats.filter (fun s => decide (s.profit = q)) := by
  refine insertionSort_filter_eq profitGE _ (fun a b ha hb => ?_) stats
  have ha' : a.profit = q := by simpa using ha
  have hb' : b.profit = q := by simpa using hb
  show b.profit ≤ a.profit
  rw [ha', hb']

/-- Claim C5: `analyzeSalesData` (src/main.js) raises an error exactly
when a structural precondition fails — `data` missing or `sellers` not a
non-empty sequence (input-validation error), or `options` missing or a
policy function missing/not invocable (options error).  The `Except`
result is total, so no other input raises and no partial report escapes:
every non-error input yields a complete report. -/
theorem analyzeSalesData_error_iff (data : Option SalesData)
    (options : Option AnalyzeOptions) :
    (∃ e, analyzeSalesData data options = Except.error e) ↔
      data = none ∨
      (∃ d, data = some d ∧ (d.sellers = none ∨ d.sellers = some [])) ∨
      options = none ∨
      (∃ o, options = some o ∧
        (o.calculateRevenue = none ∨ o.calculateBonus = none)) := by
  rcases data with _ | ⟨ds, dp, dr⟩
  · simp [analyzeSalesData]
  · rcases ds with _ | (_ | ⟨s₀, rest⟩)
    · simp [analyzeSalesData]
    · simp [analyzeSalesData]
    · rcases options with _ | ⟨orv, obo⟩
      · simp [analyzeSalesData]
      · rcases orv with _ | rv <;> rcases obo with _ | bo <;> simp [analyzeSalesData]

/-- Claim C1: on every accepted input the report is the shaping of the
profit-sorted accumulator list; that list is descending in accumulated
(pre-rounding) profit at adjacent positions, equal-profit sellers keep
the relative order of the input seller list (stable sort), and the
accumulator list itself is in input-seller order. -/
theorem analyzeSalesData_sorted_stable
    (d : SalesData) (sellers : List Seller) (o : AnalyzeOptions)
    (rev : Item → Product → ℚ) (bonus : ℕ → ℕ → SellerAcc → ℚ) (r : List Report)
    (hs : d.sellers = some sellers) (hrev : o.calculateRevenue = some rev)
    (hbonus : o.calculateBonus = some bonus)
    (h : analyzeSalesData (some d) (some o) = Except.ok r) :
    r = makeReport bonus
          (sortByProfit (aggregateStats rev d.products d.purchase_records sellers)) ∧
    List.Chain' profitGE
      (sortByProfit (aggregateStats rev d.products d.purchase_records sellers)) ∧
    (∀ q : ℚ,
      (sortByProfit (aggregateStats rev d.products d.purchase_records sellers)).filter
          (fun s => decide (s.profit = q))
        = (aggregateStats rev d.products d.purchase_records sellers).filter
            (fun s => decide (s.profit = q))) ∧
    (aggregateStats rev d.products d.purchase_records sellers).map SellerAcc.seller_id
      = sellers.map Seller.id := by
  cases sellers with
  | nil => simp [analyzeSalesData, hs] at h
  | cons s₀ rest =>
    refine ⟨?_, (sortByProfit_pairwise _).chain', fun q => sortByProfit_filter_eq _ q,
      aggregateStats_map_seller_id rev d.products d.purchase_records _⟩
    simp only [analyzeSalesData, hs, hrev, hbonus] at h
    exact (Except.ok.injEq _ _ ▸ h).symm

/-! ### A concrete example input (used by witnesses) -/

def exRev : Item → Product → ℚ := fun i _ => i.sale_price * i.quantity.getD 0

def exSellers : List Seller := [⟨"s1", "Ann", "Lee"⟩, ⟨"s2", "Bob", "Kim"⟩]

def exProducts : List Product := [⟨"p1", 10⟩]

def exRecords : List PurchaseRecord := [⟨"s1", some 100, some [⟨"p1", 20, some 5, none⟩]⟩]

def exData : SalesData := ⟨some exSellers, some exProducts, some exRecords⟩

def exOptions : AnalyzeOptions := ⟨some exRev, some calculateBonusByProfit⟩

/-- Witness for `analyzeSalesData_sorted_stable` on the concrete example. -/
theorem analyzeSalesData_sorted_stable_witness :
    makeReport calculateBonusByProfit
        (sortByProfit (aggregateStats exRev exData.products exData.purchase_records exSellers))
      = makeReport calculateBonusByProfit
          (sortByProfit (aggregateStats exRev exData.products exData.purchase_records exSellers)) ∧
    List.Chain' profitGE
      (sortByProfit (aggregateStats exRev exData.products exData.purchase_records exSellers)) ∧
    (∀ q : ℚ,
      (sortByProfit (aggregateStats exRev exData.products exData.purchase_records exSellers)).filter
          (fun s => decide (s.profit = q))
        = (aggregateStats exRev exData.products exData.purchase_records exSellers).filter
            (fun s => decide (s.profit = q))) ∧
    (aggregateStats exRev exData.products exData.purchase_records exSellers).map
        SellerAcc.seller_id
      = exSellers.map Seller.id :=
  analyzeSalesData_sorted_stable exData exSellers exOptions exRev calculateBonusByProfit
    (makeReport calculateBonusByProfit
      (sortByProfit (aggregateStats exRev exData.products exData.purchase_records exSellers)))
    rfl rfl rfl rfl

/-! ### Record-level counters for a known seller -/

theorem processRecord_known_fields (rev : Item → Product → ℚ) (products : List Product)
    (stats : List SellerAcc) (record : PurchaseRecord) (old : SellerAcc)
    (hknown : stats.any (fun s => s.seller_id == record.seller_id) = true)
    (hold : lookupStat record.seller_id stats = some old) :
    ∃ updated : SellerAcc,
      lookupStat record.seller_id (processRecord rev products stats record) = some updated ∧
      updated.sales_count = old.sales_count + 1 ∧
      updated.revenue = old.revenue + record.total_amount.getD 0 := by
  have hf : ∀ a : SellerAcc,
      ((fun seller : SellerAcc =>
        let seller := { seller with
          sales_count := seller.sales_count + 1,
          revenue := seller.revenue + record.total_amount.getD 0 }
        match record.items with
        | some items => items.foldl (processItem rev products) seller
        | none => seller) a).seller_id = a.seller_id := by
    intro a
    cases hi : record.items with
    | none => rfl
    | some items => simp [hi, foldl_processItem_seller_id]
  have hpr : processRecord rev products stats record
      = updateStat record.seller_id
          (fun seller =>
            let seller := { seller with
              sales_count := seller.sales_count + 1,
              revenue := seller.revenue + record.total_amount.getD 0 }
            match record.items with
            | some items => items.foldl (processItem rev products) seller
            | none => seller) stats := by
    unfold processRecord
    rw [if_pos hknown]
  refine ⟨_, by rw [hpr, lookupStat_updateStat _ _ hf stats, hold]; rfl, ?_, ?_⟩
  · cases hi : record.items with
    | none => simp [hi]
    | some items => simp [hi, foldl_processItem_sales_count]
  · cases hi : record.items with
    | none => simp [hi]
    | some items => simp [hi, foldl_processItem_revenue]

/-- Claim C7: a line item whose SKU matches no product is skipped on its
own — it contributes nothing to the seller (no profit, no per-SKU
quantity), deleting it from the record's items leaves the whole record
step unchanged, and the record-level counters of the resolved seller are
still bumped: `sales_count` by 1 and `revenue` by the record's
`total_amount`. -/
theorem processRecord_unknown_sku (rev : Item → Product → ℚ) (products : List Product)
    (stats : List SellerAcc) (record : PurchaseRecord) (acc old : SellerAcc)
    (item : Item) (xs ys : List Item)
    (hsku : lookupProduct products item.sku = none)
    (hknown : stats.any (fun s => s.seller_id == record.seller_id) = true)
    (hold : lookupStat record.seller_id stats = some old) :
    processItem rev products acc item = acc ∧
    (record.items = some (xs ++ item :: ys) →
      processRecord rev products stats record
        = processRecord rev products stats { record with items := some (xs ++ ys) }) ∧
    ∃ updated : SellerAcc,
      lookupStat record.seller_id (processRecord rev products stats record) = some updated ∧
      updated.sales_count = old.sales_count + 1 ∧
      updated.revenue = old.revenue + record.total_amount.getD 0 := by
  have hskip : ∀ a : SellerAcc, processItem rev products a item = a := by
    intro a
    simp [processItem, hsku]
  refine ⟨hskip acc, fun hitems => ?_, processRecord_known_fields rev products stats
    record old hknown hold⟩
  unfold processRecord
  rw [if_pos hknown, if_pos hknown]
  congr 1
  funext seller
  simp only [hitems, List.foldl_append, List.foldl_cons, hskip]

/-- Witness for `processRecord_unknown_sku`: one seller, a record whose
single item carries an unknown SKU. -/
theorem processRecord_unknown_sku_witness :
    processItem exRev [] ⟨"s1", "Ann Lee", 0, 0, 0, []⟩ ⟨"nope", 3, some 2, none⟩
      = ⟨"s1", "Ann Lee", 0, 0, 0, []⟩ ∧
    (((⟨"s1", some 7, some ([] ++ ⟨"nope", 3, some 2, none⟩ :: [])⟩ : PurchaseRecord).items
        = some ([] ++ ⟨"nope", 3, some 2, none⟩ :: [])) →
      processRecord exRev [] [⟨"s1", "Ann Lee", 0, 0, 0, []⟩]
          ⟨"s1", some 7, some ([] ++ ⟨"nope", 3, some 2, none⟩ :: [])⟩
        = processRecord exRev [] [⟨"s1", "Ann Lee", 0, 0, 0, []⟩]
            { (⟨"s1", some 7, some ([] ++ ⟨"nope", 3, some 2, none⟩ :: [])⟩ : PurchaseRecord)
              with items := some ([] ++ []) }) ∧
    ∃ updated : SellerAcc,
      lookupStat "s1"
          (processRecord exRev [] [⟨"s1", "Ann Lee", 0, 0, 0, []⟩]
            ⟨"s1", some 7, some ([] ++ ⟨"nope", 3, some 2, none⟩ :: [])⟩)
        = some updated ∧
      updated.sales_count = SellerAcc.sales_count ⟨"s1", "Ann Lee", 0, 0, 0, []⟩ + 1 ∧
      updated.revenue = SellerAcc.revenue ⟨"s1", "Ann Lee", 0, 0, 0, []⟩
        + Option.getD (PurchaseRecord.total_amount ⟨"s1", some 7,
            some ([] ++ ⟨"nope", 3, some 2, none⟩ :: [])⟩) 0 :=
  processRecord_unknown_sku exRev [] [⟨"s1", "Ann Lee", 0, 0, 0, []⟩]
    ⟨"s1", some 7, some ([] ++ ⟨"nope", 3, some 2, none⟩ :: [])⟩
    ⟨"s1", "Ann Lee", 0, 0, 0, []⟩ ⟨"s1", "Ann Lee", 0, 0, 0, []⟩
    ⟨"nope", 3, some 2, none⟩ [] [] rfl rfl rfl

/-! ### Revenue conservation (claim C8) -/

instance {ε α : Type} [DecidableEq ε] [DecidableEq α] : DecidableEq (Except ε α) :=
  fun a b =>
    match a, b with
    | Except.ok x, Except.ok y =>
      if h : x = y then isTrue (by rw [h]) else isFalse (by simp [h])
    | Except.error x, Except.error y =>
      if h : x = y then isTrue (by rw [h]) else isFalse (by simp [h])
    | Except.ok _, Except.error _ => isFalse (by simp)
    | Except.error _, Except.ok _ => isFalse (by simp)

theorem any_id_eq (sid : String) (sellers : List Seller) :
    (sellers.map Seller.id).any (fun i => i == sid)
      = sellers.any (fun s => s.id == sid) := by
  induction sellers with
  | nil => rfl
  | cons s rest ih => simp [ih]

def c8Sellers : List Seller := [⟨"s1", "Ann", "Lee"⟩]

def c8Records : List PurchaseRecord := [⟨"s1", some (1 / 3), some []⟩]

def c8Data : SalesData := ⟨some c8Sellers, some [], some c8Records⟩

/-- Claim C8 counterexample: the `revenue` *fields of the returned
report* are rounded to two decimals, so their sum can differ from the sum
of `total_amount` over the known-seller records — here a single record
with `total_amount = 1/3` yields a reported revenue of `33/100`. -/
theorem analyzeSalesData_report_revenue_not_conserved :
    analyzeSalesData (some c8Data) (some ⟨some exRev, some calculateBonusByProfit⟩)
      = Except.ok [⟨"s1", "Ann Lee", 33 / 100, 0, 1, [], 0⟩] ∧
    (([⟨"s1", "Ann Lee", 33 / 100, 0, 1, [], 0⟩] : List Report).map Report.revenue).sum
      ≠ ((c8Records.filter fun rec => c8Sellers.any fun s => s.id == rec.seller_id).map
          (fun rec => rec.total_amount.getD 0)).sum := by
  constructor <;> with_unfolding_all decide

/-- Claim C8 (amended): conservation holds for the accumulated
(pre-rounding) revenue — the sum of the per-seller accumulated revenue
equals the sum of `total_amount || 0` over exactly the purchase records
whose seller id matches a known seller — and a record with an unknown
seller id leaves the whole accumulator list untouched (no `sales_count`,
`revenue` or `profit` contribution). -/
theorem aggregateStats_revenue_conservation (rev : Item → Product → ℚ)
    (products : Option (List Product)) (records : List PurchaseRecord)
    (sellers : List Seller) :
    ((aggregateStats rev products (some records) sellers).map SellerAcc.revenue).sum
      = ((records.filter fun rec => sellers.any fun s => s.id == rec.seller_id).map
          (fun rec => rec.total_amount.getD 0)).sum ∧
    ∀ (stats : List SellerAcc) (rec : PurchaseRecord),
      stats.any (fun s => s.seller_id == rec.seller_id) = false →
      processRecord rev (products.getD []) stats rec = stats := by
  constructor
  · unfold aggregateStats
    rw [foldl_processRecord_revenue_sum rev (products.getD []) (sellers.map Seller.id)
      records (sellerStatsOf sellers) (sellerStatsOf_map_seller_id sellers)]
    have hz : ((sellerStatsOf sellers).map SellerAcc.revenue).sum = 0 := by
      induction sellers with
      | nil => rfl
      | cons s ss ih => simpa [sellerStatsOf] using ih
    rw [hz, zero_add]
    simp only [any_id_eq]
  · intro stats rec h
    exact processRecord_unknown_seller rev (products.getD []) stats rec h

/-- Witness for `aggregateStats_revenue_conservation` on the concrete
example data plus an unknown-seller record. -/
theorem aggregateStats_revenue_conservation_witness :
    ((aggregateStats exRev (some exProducts) (some exRecords) exSellers).map
        SellerAcc.revenue).sum
      = ((exRecords.filter fun rec => exSellers.any fun s => s.id == rec.seller_id).map
          (fun rec => rec.total_amount.getD 0)).sum ∧
    processRecord exRev ((some exProducts).getD []) [] ⟨"zz", some 7, none⟩ = [] :=
  ⟨(aggregateStats_revenue_conservation exRev (some exProducts) exRecords exSellers).1,
   (aggregateStats_revenue_conservation exRev (some exProducts) exRecords exSellers).2
     [] ⟨"zz", some 7, none⟩ rfl⟩

/-! ### Top products (claim C9) -/

theorem topProductsOf_length (sold : List (String × ℚ)) :
    (topProductsOf sold).length ≤ 10 := by
  unfold topProductsOf
  exact List.length_take_le 10 _

theorem topProductsOf_chain (sold : List (String × ℚ)) :
    List.Chain' quantityGE (topProductsOf sold) := by
  unfold topProductsOf
  exact List.Pairwise.chain'
    (List.Pairwise.sublist (List.take_sublist 10 _)
      (List.sorted_insertionSort quantityGE _))

theorem insertionSort_quantity_filter (l : List TopProduct) (q : ℚ) :
    (l.insertionSort quantityGE).filter (fun e => decide (e.quantity = q))
      = l.filter (fun e => decide (e.quantity = q)) := by
  refine insertionSort_filter_eq quantityGE _ (fun a b ha hb => ?_) l
  have ha' : a.quantity = q := by simpa using ha
  have hb' : b.quantity = q := by simpa using hb
  show b.quantity ≤ a.quantity
  rw [ha', hb']

/-- Every successful run returns the shaping of the sorted stats; this
destructures the success case of `analyzeSalesData`. -/
theorem analyzeSalesData_ok_shape (data : Option SalesData)
    (options : Option AnalyzeOptions) (r : List Report)
    (h : analyzeSalesData data options = Except.ok r) :
    ∃ (d : SalesData) (sellers : List Seller) (rev : Item → Product → ℚ)
      (bonus : ℕ → ℕ → SellerAcc → ℚ),
      data = some d ∧ d.sellers = some sellers ∧
      r = makeReport bonus
            (sortByProfit (aggregateStats rev d.products d.purchase_records sellers)) := by
  rcases data with _ | ⟨ds, dp, dr⟩
  · simp [analyzeSalesData] at h
  · rcases ds with _ | (_ | ⟨s₀, rest⟩)
    · simp [analyzeSalesData] at h
    · simp [analyzeSalesData] at h
    · rcases options with _ | ⟨orv, obo⟩
      · simp [analyzeSalesData] at h
      · rcases orv with _ | rv
        · simp [analyzeSalesData] at h
        · rcases obo with _ | bo
          · simp [analyzeSalesData] at h
          · simp only [analyzeSalesData, Except.ok.injEq] at h
            exact ⟨⟨some (s₀ :: rest), dp, dr⟩, s₀ :: rest, rv, bo, rfl, rfl, h.symm⟩

/-- A key kept in `products_sold` stays at its position and a new key is
appended: the dictionary's key sequence is the order of each SKU's first
occurrence among the seller's processed items. -/
theorem addSold_keys (sold : List (String × ℚ)) (sku : String) (q : ℚ) :
    (addSold sold sku q).map Prod.fst
      = if sold.any (fun e => e.1 == sku) then sold.map Prod.fst
        else sold.map Prod.fst ++ [sku] := by
  unfold addSold
  by_cases h : sold.any (fun e => e.1 == sku) = true
  · simp only [h, if_true, List.map_map]
    congr 1
    funext e
    by_cases he : (e.1 == sku) = true <;> simp [Function.comp, he]
  · simp [h]

def c9Products : List Product := [⟨"10", 1⟩, ⟨"2", 1⟩]

def c9Records : List PurchaseRecord :=
  [⟨"s1", some 2, some [⟨"10", 1, some 1, none⟩, ⟨"2", 1, some 1, none⟩]⟩]

def c9Data : SalesData := ⟨some [⟨"s1", "Ann", "Lee"⟩], some c9Products, some c9Records⟩

/-- Claim C9 counterexample: with two equal-quantity SKUs `"10"` and
`"2"` first occurring in that order, the output's `top_products` is
`["2", "10"]`, not the first-occurrence order `["10", "2"]` —
`Object.entries` enumerates integer-like (array-index) keys in ascending
numeric order before the quantity sort ever runs, so the claimed
insertion-order tie-break fails. -/
theorem analyzeSalesData_top_products_ties_not_insertion_order :
    analyzeSalesData (some c9Data) (some ⟨some exRev, some calculateBonusByProfit⟩)
      = Except.ok [⟨"s1", "Ann Lee", 2, 0, 1, [⟨"2", 1⟩, ⟨"10", 1⟩], 0⟩] ∧
    [TopProduct.mk "2" 1, TopProduct.mk "10" 1]
      ≠ [TopProduct.mk "10" 1, TopProduct.mk "2" 1] := by
  constructor <;> with_unfolding_all decide

/-- Claim C9 (amended): for the report row at any output position, with
`s` the accumulator at the same position of the sorted stats list, the
`top_products` list is `topProductsOf s.products_sold`: it has at most 10
entries, is descending in quantity at adjacent positions, and is the
10-prefix of a stable descending-quantity sort of the entries enumerated
in JS property order (`jsEntries`: array-index SKUs ascending numerically
first, then the remaining SKUs in insertion order) — so ties keep the
`jsEntries` enumeration order, which coincides with first-occurrence
order exactly when no SKU is an array-index string; the final conjunct
records that `products_sold` itself lists SKUs in first-occurrence order
(`addSold` appends a new SKU and never moves an existing one). -/
theorem analyzeSalesData_top_products
    (d : SalesData) (sellers : List Seller) (o : AnalyzeOptions)
    (rev : Item → Product → ℚ) (bonus : ℕ → ℕ → SellerAcc → ℚ) (r : List Report)
    (i : ℕ) (s : SellerAcc) (rep : Report)
    (hs : d.sellers = some sellers) (hrev : o.calculateRevenue = some rev)
    (hbonus : o.calculateBonus = some bonus)
    (h : analyzeSalesData (some d) (some o) = Except.ok r)
    (hstat : (sortByProfit (aggregateStats rev d.products d.purchase_records sellers))[i]?
        = some s)
    (hrep : r[i]? = some rep) :
    rep.top_products = topProductsOf s.products_sold ∧
    rep.top_products.length ≤ 10 ∧
    List.Chain' quantityGE rep.top_products ∧
    rep.top_products
      = (((jsEntries s.products_sold).map fun e => TopProduct.mk e.1 e.2).insertionSort
          quantityGE).take 10 ∧
    List.Chain' quantityGE
      (((jsEntries s.products_sold).map fun e => TopProduct.mk e.1 e.2).insertionSort
        quantityGE) ∧
    (∀ q : ℚ,
      (((jsEntries s.products_sold).map fun e => TopProduct.mk e.1 e.2).insertionSort
          quantityGE).filter (fun e => decide (e.quantity = q))
        = ((jsEntries s.products_sold).map fun e => TopProduct.mk e.1 e.2).filter
            (fun e => decide (e.quantity = q))) ∧
    (∀ (sold : List (String × ℚ)) (sku : String) (q : ℚ),
      (addSold sold sku q).map Prod.fst
        = if sold.any (fun e => e.1 == sku) then sold.map Prod.fst
          else sold.map Prod.fst ++ [sku]) := by
  cases sellers with
  | nil => simp [analyzeSalesData, hs] at h
  | cons s₀ rest =>
    have hr : r = makeReport bonus
        (sortByProfit (aggregateStats rev d.products d.purchase_records (s₀ :: rest))) := by
      simp only [analyzeSalesData, hs, hrev, hbonus] at h
      exact (Except.ok.injEq _ _ ▸ h).symm
    subst hr
    simp only [makeReport, List.getElem?_map, List.getElem?_enum, hstat,
      Option.map_some', Option.some.injEq] at hrep
    subst hrep
    exact ⟨rfl, topProductsOf_length _, topProductsOf_chain _, rfl,
      List.Pairwise.chain' (List.sorted_insertionSort quantityGE _),
      fun q => insertionSort_quantity_filter _ q,
      fun sold sku q => addSold_keys sold sku q⟩

def exReport1 : Report := ⟨"s1", "Ann Lee", 100, 50, 1, [⟨"p1", 5⟩], 15 / 2⟩

def exReport2 : Report := ⟨"s2", "Bob Kim", 0, 0, 0, [], 0⟩

def exStat1 : SellerAcc := ⟨"s1", "Ann Lee", 100, 50, 1, [("p1", 5)]⟩

/-- Witness for `analyzeSalesData_top_products` on the concrete example,
at output position 0. -/
theorem analyzeSalesData_top_products_witness :
    exReport1.top_products = topProductsOf exStat1.products_sold ∧
    exReport1.top_products.length ≤ 10 ∧
    List.Chain' quantityGE exReport1.top_products ∧
    exReport1.top_products
      = (((jsEntries exStat1.products_sold).map fun e => TopProduct.mk e.1 e.2).insertionSort
          quantityGE).take 10 ∧
    List.Chain' quantityGE
      (((jsEntries exStat1.products_sold).map fun e => TopProduct.mk e.1 e.2).insertionSort
        quantityGE) ∧
    (∀ q : ℚ,
      (((jsEntries exStat1.products_sold).map fun e => TopProduct.mk e.1 e.2).insertionSort
          quantityGE).filter (fun e => decide (e.quantity = q))
        = ((jsEntries exStat1.products_sold).map fun e => TopProduct.mk e.1 e.2).filter
            (fun e => decide (e.quantity = q))) ∧
    (∀ (sold : List (String × ℚ)) (sku : String) (q : ℚ),
      (addSold sold sku q).map Prod.fst
        = if sold.any (fun e => e.1 == sku) then sold.map Prod.fst
          else sold.map Prod.fst ++ [sku]) :=
  analyzeSalesData_top_products exData exSellers exOptions exRev calculateBonusByProfit
    [exReport1, exReport2] 0 exStat1 exReport1 rfl rfl rfl
    (by with_unfolding_all decide)
    (by with_unfolding_all decide)
    (by with_unfolding_all decide)

/-! ### The strict variant (second source file) -/

namespace Strict

/-- A purchase record as the strict variant reads it: `total_amount` and
`items` are used directly (no default), so the embedding carries them as
plain fields. -/
structure PurchaseRecord where
  seller_id : String
  total_amount : ℚ
  items : List StrictItem
deriving DecidableEq

/-- The `data` argument of the strict variant. -/
structure SalesData where
  sellers : Option (List Seller)
  products : Option (List Product)
  purchase_records : Option (List PurchaseRecord)

/-- The `options` argument of the strict variant. -/
structure AnalyzeOptions where
  calculateRevenue : Option (StrictItem → Product → ℚ)
  calculateBonus : Option (ℕ → ℕ → SellerAcc → ℚ)

/-- The per-item loop body of the strict variant: identical to the
lenient one except that `item.quantity` is used without a default. -/
def processItem (calculateRevenue : StrictItem → Product → ℚ) (products : List Product)
    (seller : SellerAcc) (item : StrictItem) : SellerAcc :=
  match lookupProduct products item.sku with
  | none => seller
  | some product =>
    let cost := product.purchase_price * item.quantity
    let revenue := calculateRevenue item product
    let itemProfit := revenue - cost
    { seller with
      profit := seller.profit + itemProfit,
      products_sold := addSold seller.products_sold item.sku item.quantity }

/-- The per-record loop body of the strict variant: `total_amount` and
`items` are read directly. -/
def processRecord (calculateRevenue : StrictItem → Product → ℚ) (products : List Product)
    (stats : List SellerAcc) (record : PurchaseRecord) : List SellerAcc :=
  if stats.any (fun s => s.seller_id == record.seller_id) then
    updateStat record.seller_id
      (fun seller =>
        let seller := { seller with
          sales_count := seller.sales_count + 1,
          revenue := seller.revenue + record.total_amount }
        record.items.foldl (processItem calculateRevenue products) seller)
      stats
  else
    stats

/-- `analyzeSalesData(data, options)` from the strict source file:
validation requires `sellers`, `products` and `purchase_records` to all
be present non-empty arrays; the strict source sorts `sellerStats` in
place, which is functionally the same as sorting a copy. -/
def analyzeSalesData (data : Option SalesData) (options : Option AnalyzeOptions) :
    Except String (List Report) :=
  match data with
  | none => Except.error "Некорректные входные данные"
  | some d =>
    match d.sellers, d.products, d.purchase_records with
    | some (s₀ :: sellers), some (p₀ :: products), some (r₀ :: records) =>
      match options with
      | none => Except.error "Некорректные опции"
      | some o =>
        match o.calculateRevenue, o.calculateBonus with
        | some calculateRevenue, some calculateBonus =>
          Except.ok (makeReport calculateBonus
            (sortByProfit ((r₀ :: records).foldl
              (processRecord calculateRevenue (p₀ :: products))
              (sellerStatsOf (s₀ :: sellers)))))
        | _, _ => Except.error "Некорректные опции"
    | _, _, _ => Except.error "Некорректные входные данные"

end Strict

/-- A strict line item viewed as a lenient one (all fields present). -/
def StrictItem.toItem (i : StrictItem) : Item :=
  ⟨i.sku, i.sale_price, some i.quantity, i.discount⟩

/-- A strict purchase record viewed as a lenient one. -/
def toLenientRecord (r : Strict.PurchaseRecord) : PurchaseRecord :=
  ⟨r.seller_id, some r.total_amount, some (r.items.map StrictItem.toItem)⟩

/-- A strict data object viewed as a lenient one. -/
def toLenientData (d : Strict.SalesData) : SalesData :=
  ⟨d.sellers, d.products, d.purchase_records.map (List.map toLenientRecord)⟩

/-- Claim C6 counterexample: the `src/main.js` variant is lenient — with
`products` and `purchase_records` both absent it returns a report instead
of raising an input-validation error. -/
theorem analyzeSalesData_lenient_accepts_missing_collections :
    analyzeSalesData (some ⟨some [⟨"s1", "Ann", "Lee"⟩], none, none⟩)
        (some ⟨some exRev, some calculateBonusByProfit⟩)
      = Except.ok [⟨"s1", "Ann Lee", 0, 0, 0, [], 0⟩] := by
  with_unfolding_all decide

/-- Claim C6 (amended): only the strict source variant validates
strictly — whenever `products` or `purchase_records` is absent or empty
it raises the input-validation error (for any options). -/
theorem strict_analyzeSalesData_requires_collections (d : Strict.SalesData)
    (options : Option Strict.AnalyzeOptions)
    (h : d.products = none ∨ d.products = some [] ∨
         d.purchase_records = none ∨ d.purchase_records = some []) :
    Strict.analyzeSalesData (some d) options
      = Except.error "Некорректные входные данные" := by
  obtain ⟨ds, dp, dr⟩ := d
  rcases ds with _ | (_ | ⟨s₀, ss⟩) <;>
    rcases dp with _ | (_ | ⟨p₀, ps⟩) <;>
    rcases dr with _ | (_ | ⟨r₀, rs⟩) <;>
    simp_all [Strict.analyzeSalesData]

/-- Witness for `strict_analyzeSalesData_requires_collections`. -/
theorem strict_analyzeSalesData_requires_collections_witness :
    Strict.analyzeSalesData (some ⟨some [⟨"s1", "Ann", "Lee"⟩], none, none⟩) none
      = Except.error "Некорректные входные данные" :=
  strict_analyzeSalesData_requires_collections
    ⟨some [⟨"s1", "Ann", "Lee"⟩], none, none⟩ none (Or.inl rfl)

/-! ### Equivalence of the two variants on their common domain (claim C10) -/

theorem processItem_toItem (rev : Item → Product → ℚ) (products : List Product)
    (seller : SellerAcc) (i : StrictItem) :
    processItem rev products seller i.toItem
      = Strict.processItem (fun j p => rev j.toItem p) products seller i := by
  simp only [processItem, Strict.processItem, StrictItem.toItem]
  cases lookupProduct products i.sku <;> simp

theorem processRecord_toRecord (rev : Item → Product → ℚ) (products : List Product)
    (stats : List SellerAcc) (r : Strict.PurchaseRecord) :
    processRecord rev products stats (toLenientRecord r)
      = Strict.processRecord (fun j p => rev j.toItem p) products stats r := by
  simp only [processRecord, Strict.processRecord, toLenientRecord]
  by_cases h : stats.any (fun s => s.seller_id == r.seller_id) = true
  · simp only [h, if_true]
    congr 1
    funext seller
    simp only [Option.getD_some]
    rw [List.foldl_map]
    have hfun : (fun (x : SellerAcc) (y : StrictItem) => processItem rev products x y.toItem)
        = Strict.processItem (fun j p => rev j.toItem p) products := by
      funext x y
      exact processItem_toItem rev products x y
    rw [hfun]
  · simp [h]

theorem foldl_processRecord_toRecord (rev : Item → Product → ℚ)
    (products : List Product) :
    ∀ (recs : List Strict.PurchaseRecord) (stats : List SellerAcc),
      (recs.map toLenientRecord).foldl (processRecord rev products) stats
        = recs.foldl (Strict.processRecord (fun j p => rev j.toItem p) products) stats
  | [], _ => rfl
  | rec :: recs, stats => by
    rw [List.map_cons, List.foldl_cons, List.foldl_cons, processRecord_toRecord,
      foldl_processRecord_toRecord rev products recs]

/-- Claim C10: on the common domain — inputs that pass the strict
variant's validation, with every record carrying `total_amount` and an
items array and every item carrying a `quantity` (enforced here by the
strict record type) — the strict and the lenient variants return the
same report for the same policies. -/
theorem analyzeSalesData_variants_agree (d : Strict.SalesData)
    (sellers : List Seller) (products : List Product)
    (records : List Strict.PurchaseRecord)
    (rev : Item → Product → ℚ) (bonus : ℕ → ℕ → SellerAcc → ℚ)
    (hs : d.sellers = some sellers) (hsne : sellers ≠ [])
    (hp : d.products = some products) (hpne : products ≠ [])
    (hr : d.purchase_records = some records) (hrne : records ≠ []) :
    Strict.analyzeSalesData (some d)
        (some ⟨some (fun i p => rev i.toItem p), some bonus⟩)
      = analyzeSalesData (some (toLenientData d)) (some ⟨some rev, some bonus⟩) := by
  obtain ⟨s₀, ss, rfl⟩ : ∃ s₀ ss, sellers = s₀ :: ss := by
    cases sellers with
    | nil => exact absurd rfl hsne
    | cons a l => exact ⟨a, l, rfl⟩
  obtain ⟨p₀, ps, rfl⟩ : ∃ p₀ ps, products = p₀ :: ps := by
    cases products with
    | nil => exact absurd rfl hpne
    | cons a l => exact ⟨a, l, rfl⟩
  obtain ⟨r₀, rs, rfl⟩ : ∃ r₀ rs, records = r₀ :: rs := by
    cases records with
    | nil => exact absurd rfl hrne
    | cons a l => exact ⟨a, l, rfl⟩
  have hd : toLenientData d
      = ⟨some (s₀ :: ss), some (p₀ :: ps),
          some ((r₀ :: rs).map toLenientRecord)⟩ := by
    unfold toLenientData
    rw [hs, hp, hr]
    rfl
  rw [hd]
  simp only [Strict.analyzeSalesData, analyzeSalesData, hs, hp, hr, List.map_cons,
    aggregateStats, Option.getD_some]
  rw [← List.map_cons toLenientRecord r₀ rs, foldl_processRecord_toRecord]

/-- Witness for `analyzeSalesData_variants_agree` on concrete data. -/
theorem analyzeSalesData_variants_agree_witness :
    Strict.analyzeSalesData
        (some ⟨some [⟨"s1", "Ann", "Lee"⟩], some [⟨"p1", 10⟩],
          some [⟨"s1", 100, [⟨"p1", 20, 5, none⟩]⟩]⟩)
        (some ⟨some (fun i p => exRev i.toItem p), some calculateBonusByProfit⟩)
      = analyzeSalesData
          (some (toLenientData ⟨some [⟨"s1", "Ann", "Lee"⟩], some [⟨"p1", 10⟩],
            some [⟨"s1", 100, [⟨"p1", 20, 5, none⟩]⟩]⟩))
          (some ⟨some exRev, some calculateBonusByProfit⟩) :=
  analyzeSalesData_variants_agree
    ⟨some [⟨"s1", "Ann", "Lee"⟩], some [⟨"p1", 10⟩],
      some [⟨"s1", 100, [⟨"p1", 20, 5, none⟩]⟩]⟩
    [⟨"s1", "Ann", "Lee"⟩] [⟨"p1", 10⟩] [⟨"s1", 100, [⟨"p1", 20, 5, none⟩]⟩]
    exRev calculateBonusByProfit rfl (by simp) rfl (by simp) rfl (by simp)
